import Mathlib

/-!
Verification of the clu-comics core: the in-memory operations registry
(`app_state.py`) and the collection-matching engine (`helpers/collection.py`).

Conventions of the embedding:
* Python strings of the matcher are `List Char` (named `Str` below) so that
  character-level operations (strip, lstrip, regex fragments) are plain list
  functions; registry-level strings (ids, labels, statuses) stay `String`.
* Wall-clock times and file modification times are integers (seconds); the
  mtime comparison logic of the source is unchanged by this choice.
* Filesystem and database effects are an explicit `Env` record of oracles;
  an `Option` result models a raised `OSError` (`none`) where the source
  catches one.
* A Python `dict` is an association list with insert-or-overwrite update,
  preserving insertion order, as CPython dicts do.
-/

/-- Python truthiness of an optional numeric id: `None` and `0` are falsy. -/
def truthyId : Option Int → Bool
  | none => false
  | some v => v != 0

/-- Insert-or-overwrite update of an association list, preserving order:
the semantics of `d[k] = v` on a CPython dict. -/
def dictSet {α β : Type} [DecidableEq α] (d : List (α × β)) (k : α) (v : β) :
    List (α × β) :=
  if d.any (fun kv => kv.1 = k) then
    d.map (fun kv => if kv.1 = k then (k, v) else kv)
  else
    d ++ [(k, v)]

/-! ## Operations registry (`app_state.py`) -/

/-- One record of the `_operations` dict (`app_state.py`, `register_operation`). -/
structure Operation where
  id : String
  op_type : String
  label : String
  status : String
  current : Int
  total : Int
  detail : String
  started_at : Int
  updated_at : Int
  completed_at : Option Int
  deriving DecidableEq, Repr

/-- The `_operations` registry: a dict keyed by operation id. -/
abbrev Ops := List (String × Operation)

/-- `COMPLETED_TTL = 15` (`app_state.py` line 22). -/
def COMPLETED_TTL : Int := 15

/-- `STALE_TIMEOUT = 300` (`app_state.py` line 23). -/
def STALE_TIMEOUT : Int := 300

/-- `register_operation` (`app_state.py` lines 26-43): inserts a fresh record
with status `running`, `current = 0`, detail `Starting...`, `completed_at =
None`.  The uuid the source generates internally is passed in as `op_id`. -/
def register_operation (ops : Ops) (op_id : String) (op_type label : String)
    (total : Int) (now : Int) : Ops :=
  dictSet ops op_id
    { id := op_id, op_type := op_type, label := label, status := "running",
      current := 0, total := total, detail := "Starting...",
      started_at := now, updated_at := now, completed_at := none }

/-- Apply `f` to the value stored under key `k`, if present; otherwise leave
the dict unchanged (the `_operations.get(op_id)` / early-return idiom). -/
def updateAt (ops : Ops) (k : String) (f : Operation → Operation) : Ops :=
  ops.map (fun kv => if kv.1 = k then (kv.1, f kv.2) else kv)

/-- `update_operation` (`app_state.py` lines 46-58): applies only the provided
fields, always refreshes `updated_at`; no-op when the id is absent. -/
def update_operation (ops : Ops) (op_id : String) (current? total? : Option Int)
    (detail? : Option String) (now : Int) : Ops :=
  updateAt ops op_id (fun op =>
    { op with
      current := current?.getD op.current,
      total := total?.getD op.total,
      detail := detail?.getD op.detail,
      updated_at := now })

/-- `complete_operation` (`app_state.py` lines 61-70): sets the terminal status
and `completed_at`; on success snaps `current` to `total`; no-op when the id
is absent. -/
def complete_operation (ops : Ops) (op_id : String) (error : Bool) (now : Int) :
    Ops :=
  updateAt ops op_id (fun op =>
    let op := { op with
      status := if error then "error" else "completed",
      completed_at := some now }
    if error then op else { op with current := op.total })

/-- The stale-marking sweep of `get_active_operations` (`app_state.py`
lines 78-82) applied to one record. -/
def markStale (now : Int) (op : Operation) : Operation :=
  if op.status = "running" ∧ now - op.updated_at > STALE_TIMEOUT then
    { op with
      status := "error", completed_at := some now,
      detail := "Operation stalled" }
  else op

/-- The TTL prune condition of `get_active_operations` (`app_state.py`
lines 85-90) on one record. -/
def isExpired (now : Int) (op : Operation) : Bool :=
  (op.status = "completed" ∨ op.status = "error") &&
    match op.completed_at with
    | some t => now - t > COMPLETED_TTL
    | none => false

/-- `get_active_operations` (`app_state.py` lines 73-93): marks stale running
ops as error, prunes expired terminal ops, and returns the new registry
together with the returned value list. -/
def get_active_operations (ops : Ops) (now : Int) : Ops × List Operation :=
  let marked := ops.map (fun kv => (kv.1, markStale now kv.2))
  let pruned := marked.filter (fun kv => !(isExpired now kv.2))
  (pruned, pruned.map (fun kv => kv.2))

/-! ### Registry theorems -/

/-- Status literals used by the registry are pairwise distinct. -/
theorem running_ne_completed : ("running" : String) ≠ "completed" := by decide

/-- Status literal disequality. -/
theorem running_ne_error : ("running" : String) ≠ "error" := by decide

/-- Status literal disequality. -/
theorem completed_ne_running : ("completed" : String) ≠ "running" := by decide

/-- Status literal disequality. -/
theorem error_ne_running : ("error" : String) ≠ "running" := by decide

/-- `updateAt` on an absent key is the identity. -/
theorem updateAt_absent (ops : Ops) (k : String) (f : Operation → Operation)
    (habs : ∀ op : Operation, (k, op) ∉ ops) : updateAt ops k f = ops := by
  induction ops with
  | nil => rfl
  | cons kv rest ih =>
    have hne : kv.1 ≠ k := by
      intro h
      exact habs kv.2 (by rw [← h]; exact List.mem_cons_self _ _)
    show (if kv.1 = k then (kv.1, f kv.2) else kv) ::
        rest.map (fun kv => if kv.1 = k then (kv.1, f kv.2) else kv) = kv :: rest
    rw [if_neg hne]
    have := ih (fun op hmem => habs op (List.mem_cons_of_mem _ hmem))
    unfold updateAt at this
    rw [this]

/-- C3: `complete_operation` with `error = false` sets status `completed`,
sets `completed_at` to the (non-null) call time and forces `current = total`;
with `error = true` it sets status `error`, sets `completed_at`, and leaves
`current` at its last updated value. -/
theorem c3_complete_operation (ops : Ops) (k : String) (op : Operation)
    (now : Int) (hmem : (k, op) ∈ ops) :
    (k, { op with
          status := "completed", completed_at := some now,
          current := op.total }) ∈ complete_operation ops k false now ∧
    (k, { op with status := "error", completed_at := some now }) ∈
      complete_operation ops k true now := by
  constructor <;>
  · unfold complete_operation updateAt
    refine List.mem_map.mpr ⟨(k, op), hmem, ?_⟩
    simp

/-- One sample registry record used by concrete witnesses. -/
def sampleRunningOp : Operation :=
  { id := "a", op_type := "scan", label := "L", status := "running",
    current := 3, total := 10, detail := "d", started_at := 0,
    updated_at := 5, completed_at := none }

/-- Witness for C3 at a concrete registry. -/
theorem c3_complete_operation_witness :
    ("a", { sampleRunningOp with
            status := "completed",
            completed_at := some 7, current := 10 }) ∈
        complete_operation [("a", sampleRunningOp)] "a" false 7 ∧
    ("a", { sampleRunningOp with status := "error", completed_at := some 7 }) ∈
        complete_operation [("a", sampleRunningOp)] "a" true 7 :=
  c3_complete_operation [("a", sampleRunningOp)] "a" sampleRunningOp 7
    (List.mem_singleton.mpr rfl)

/-- C4: after `get_active_operations` at time `now`, a running operation whose
`updated_at` is older than the stale timeout survives transitioned to status
`error` with detail `Operation stalled` and `completed_at` set; a terminal
operation whose `completed_at` is older than the retention window is deleted
from the registry and absent from the returned list; every other operation
survives unchanged and is returned. -/
theorem c4_get_active_operations (ops : Ops) (now : Int) (k : String)
    (op : Operation) (hmem : (k, op) ∈ ops) :
    ((op.status = "running" ∧ now - op.updated_at > STALE_TIMEOUT) →
      ((k, { op with
             status := "error", completed_at := some now,
             detail := "Operation stalled" }) ∈
          (get_active_operations ops now).1 ∧
       { op with
         status := "error", completed_at := some now,
         detail := "Operation stalled" } ∈
          (get_active_operations ops now).2)) ∧
    (((op.status = "completed" ∨ op.status = "error") ∧
        (∃ t, op.completed_at = some t ∧ now - t > COMPLETED_TTL)) →
      ((k, op) ∉ (get_active_operations ops now).1 ∧
       op ∉ (get_active_operations ops now).2)) ∧
    ((¬(op.status = "running" ∧ now - op.updated_at > STALE_TIMEOUT) ∧
      ¬((op.status = "completed" ∨ op.status = "error") ∧
        (∃ t, op.completed_at = some t ∧ now - t > COMPLETED_TTL))) →
      ((k, op) ∈ (get_active_operations ops now).1 ∧
       op ∈ (get_active_operations ops now).2)) := by
  refine ⟨?_, ?_, ?_⟩
  · rintro ⟨hrun, hold⟩
    have hmark : markStale now op =
        { op with
          status := "error", completed_at := some now,
          detail := "Operation stalled" } := by
      unfold markStale
      rw [if_pos ⟨hrun, hold⟩]
    have hexp : isExpired now (markStale now op) = false := by
      rw [hmark]
      simp [isExpired, COMPLETED_TTL]
    have h1 : (k, markStale now op) ∈ (get_active_operations ops now).1 := by
      unfold get_active_operations
      refine List.mem_filter.mpr ⟨?_, ?_⟩
      · exact List.mem_map.mpr ⟨(k, op), hmem, rfl⟩
      · simp [hexp]
    rw [hmark] at h1
    exact ⟨h1, List.mem_map.mpr ⟨_, h1, rfl⟩⟩
  · rintro ⟨hterm, t, hc, hold⟩
    have hexp : isExpired now op = true := by
      unfold isExpired
      rw [hc]
      simp only [Bool.and_eq_true, decide_eq_true_eq]
      exact ⟨hterm, hold⟩
    constructor
    · intro hin
      have := (List.mem_filter.mp hin).2
      simp [hexp] at this
    · intro hin
      rcases List.mem_map.mp hin with ⟨kv, hkv, hval⟩
      have := (List.mem_filter.mp hkv).2
      rw [hval] at this
      simp [hexp] at this
  · rintro ⟨hnstale, hnexp⟩
    have hmark : markStale now op = op := by
      unfold markStale
      rw [if_neg hnstale]
    have hexp : isExpired now op = false := by
      unfold isExpired
      cases hcc : op.completed_at with
      | none => simp
      | some t =>
        by_cases hterm : op.status = "completed" ∨ op.status = "error"
        · have hng : ¬(now - t > COMPLETED_TTL) := fun hgt =>
            hnexp ⟨hterm, t, hcc, hgt⟩
          simp [hng]
        · simp [hterm]
    have h1 : (k, op) ∈ (get_active_operations ops now).1 := by
      unfold get_active_operations
      refine List.mem_filter.mpr ⟨?_, ?_⟩
      · exact List.mem_map.mpr ⟨(k, op), hmem, by rw [hmark]⟩
      · simp [hexp]
    exact ⟨h1, List.mem_map.mpr ⟨_, h1, rfl⟩⟩

/-- A stale running record for the C4 witness. -/
def sampleStaleOp : Operation :=
  { id := "s", op_type := "scan", label := "L", status := "running",
    current := 1, total := 4, detail := "d", started_at := 0,
    updated_at := 0, completed_at := none }

/-- An expired completed record for the C4 witness. -/
def sampleExpiredOp : Operation :=
  { id := "e", op_type := "scan", label := "L", status := "completed",
    current := 4, total := 4, detail := "d", started_at := 0,
    updated_at := 10, completed_at := some 10 }

/-- A fresh running record for the C4 witness. -/
def sampleFreshOp : Operation :=
  { id := "f", op_type := "scan", label := "L", status := "running",
    current := 2, total := 4, detail := "d", started_at := 900,
    updated_at := 900, completed_at := none }

/-- The three-record registry for the C4 witness. -/
def sampleOps : Ops :=
  [("s", sampleStaleOp), ("e", sampleExpiredOp), ("f", sampleFreshOp)]

/-- Witness for C4: at time 1000 the stale running op is returned as an
error, the expired completed op is pruned, and the fresh running op
survives unchanged. -/
theorem c4_get_active_operations_witness :
    ({ sampleStaleOp with
       status := "error", completed_at := some 1000,
       detail := "Operation stalled" } ∈
        (get_active_operations sampleOps 1000).2 ∧
     sampleExpiredOp ∉ (get_active_operations sampleOps 1000).2 ∧
     sampleFreshOp ∈ (get_active_operations sampleOps 1000).2) := by
  refine ⟨?_, ?_, ?_⟩
  · exact ((c4_get_active_operations sampleOps 1000 "s" sampleStaleOp
      (by decide)).1 (by decide)).2
  · exact ((c4_get_active_operations sampleOps 1000 "e" sampleExpiredOp
      (by decide)).2.1 ⟨Or.inl rfl, 10, rfl, by decide⟩).2
  · exact ((c4_get_active_operations sampleOps 1000 "f" sampleFreshOp
      (by decide)).2.2 (by
        constructor
        · rintro ⟨-, h⟩
          exact absurd h (by decide)
        · rintro ⟨-, t, ht, -⟩
          exact Option.noConfusion ht)).2

/-- C8: for an id absent from the registry, `update_operation` and
`complete_operation` leave the registry entirely unchanged; for a present id,
`update_operation` applies exactly the provided fields and always refreshes
`updated_at`. -/
theorem c8_unknown_op_noop (ops : Ops) (k : String) (current? total? : Option Int)
    (detail? : Option String) (error : Bool) (now : Int) :
    ((∀ op : Operation, (k, op) ∉ ops) →
      update_operation ops k current? total? detail? now = ops ∧
      complete_operation ops k error now = ops) ∧
    (∀ op : Operation, (k, op) ∈ ops →
      (k, { op with
              current := current?.getD op.current,
              total := total?.getD op.total,
              detail := detail?.getD op.detail,
              updated_at := now }) ∈
        update_operation ops k current? total? detail? now) := by
  constructor
  · intro habs
    exact ⟨updateAt_absent ops k _ habs, updateAt_absent ops k _ habs⟩
  · intro op hmem
    unfold update_operation updateAt
    refine List.mem_map.mpr ⟨(k, op), hmem, ?_⟩
    simp

/-- Witness for C8: unknown-id calls change nothing; a present-id update
applies the provided fields only. -/
theorem c8_unknown_op_noop_witness :
    (update_operation [("a", sampleRunningOp)] "zzz" (some 2) none none 9 =
        [("a", sampleRunningOp)] ∧
     complete_operation [("a", sampleRunningOp)] "zzz" false 9 =
        [("a", sampleRunningOp)]) ∧
    ("a", { sampleRunningOp with current := 2, updated_at := 9 }) ∈
      update_operation [("a", sampleRunningOp)] "a" (some 2) none none 9 := by
  constructor
  · exact (c8_unknown_op_noop [("a", sampleRunningOp)] "zzz"
      (some 2) none none false 9).1 (by
        intro o h
        rw [List.mem_singleton, Prod.mk.injEq] at h
        exact absurd h.1 (by decide))
  · exact (c8_unknown_op_noop [("a", sampleRunningOp)] "a"
      (some 2) none none false 9).2 sampleRunningOp (List.mem_singleton.mpr rfl)

/-- The completed-at invariant on one record: terminal status has a non-null
`completed_at`, running status has `completed_at = None`. -/
def opWF (op : Operation) : Prop :=
  ((op.status = "completed" ∨ op.status = "error") → op.completed_at ≠ none) ∧
  (op.status = "running" → op.completed_at = none)

instance (op : Operation) : Decidable (opWF op) := by
  unfold opWF
  infer_instance

/-- The invariant over the whole registry. -/
def regWF (ops : Ops) : Prop := ∀ kv ∈ ops, opWF kv.2

/-- C10: in every reachable registry state terminal operations carry a
non-null `completed_at` and running ones a null `completed_at`:
`register_operation` establishes the invariant and every other registry
operation preserves it, so the TTL prune condition always finds a timestamp. -/
theorem c10_completed_at_invariant (ops : Ops) (hwf : regWF ops)
    (op_id op_type label : String) (total : Int) (current? total? : Option Int)
    (detail? : Option String) (error : Bool) (now : Int) :
    regWF (register_operation ops op_id op_type label total now) ∧
    regWF (update_operation ops op_id current? total? detail? now) ∧
    regWF (complete_operation ops op_id error now) ∧
    regWF (get_active_operations ops now).1 ∧
    (∀ kv ∈ ops, kv.2.status = "completed" ∨ kv.2.status = "error" →
      ∃ t, kv.2.completed_at = some t) := by
  refine ⟨?_, ?_, ?_, ?_, ?_⟩
  · intro kv hkv
    unfold register_operation dictSet at hkv
    split at hkv
    · rcases List.mem_map.mp hkv with ⟨kv₀, h₀, hval⟩
      by_cases he : kv₀.1 = op_id
      · rw [if_pos he] at hval
        subst hval
        exact ⟨fun h => h.elim (fun h1 => absurd h1 running_ne_completed)
          (fun h1 => absurd h1 running_ne_error), fun _ => rfl⟩
      · rw [if_neg he] at hval
        subst hval
        exact hwf kv₀ h₀
    · rcases List.mem_append.mp hkv with h | h
      · exact hwf kv h
      · rw [List.mem_singleton] at h
        subst h
        exact ⟨fun h => h.elim (fun h1 => absurd h1 running_ne_completed)
          (fun h1 => absurd h1 running_ne_error), fun _ => rfl⟩
  · intro kv hkv
    unfold update_operation updateAt at hkv
    rcases List.mem_map.mp hkv with ⟨kv₀, h₀, hval⟩
    have h := hwf kv₀ h₀
    by_cases he : kv₀.1 = op_id
    · rw [if_pos he] at hval
      subst hval
      exact ⟨fun hs => h.1 hs, fun hs => h.2 hs⟩
    · rw [if_neg he] at hval
      subst hval
      exact h
  · intro kv hkv
    unfold complete_operation updateAt at hkv
    rcases List.mem_map.mp hkv with ⟨kv₀, h₀, hval⟩
    by_cases he : kv₀.1 = op_id
    · rw [if_pos he] at hval
      subst hval
      cases error with
      | false =>
        exact ⟨fun _ hn => Option.noConfusion hn,
               fun hs => absurd hs completed_ne_running⟩
      | true =>
        exact ⟨fun _ hn => Option.noConfusion hn,
               fun hs => absurd hs error_ne_running⟩
    · rw [if_neg he] at hval
      subst hval
      exact hwf kv₀ h₀
  · intro kv hkv
    have hkv' := (List.mem_filter.mp hkv).1
    rcases List.mem_map.mp hkv' with ⟨kv₀, h₀, hval⟩
    have h := hwf kv₀ h₀
    subst hval
    show opWF (markStale now kv₀.2)
    unfold markStale
    split
    · exact ⟨fun _ hn => Option.noConfusion hn,
             fun hs => absurd hs error_ne_running⟩
    · exact h
  · intro kv hkv hterm
    rcases hc : kv.2.completed_at with _ | t
    · exact absurd hc ((hwf kv hkv).1 hterm)
    · exact ⟨t, rfl⟩

/-- Witness for C10 starting from the empty (trivially well-formed)
registry. -/
theorem c10_completed_at_invariant_witness :
    regWF (register_operation [] "a" "scan" "L" 4 0) ∧
    regWF (update_operation [] "a" (some 2) none none 0) ∧
    regWF (complete_operation [] "a" false 0) ∧
    regWF (get_active_operations [] 0).1 ∧
    (∀ kv ∈ ([] : Ops), kv.2.status = "completed" ∨ kv.2.status = "error" →
      ∃ t, kv.2.completed_at = some t) :=
  c10_completed_at_invariant [] (fun kv h => absurd h (List.not_mem_nil kv))
    "a" "scan" "L" 4 (some 2) none none false 0

/-! ## Collection matcher (`helpers/collection.py`)

Python strings are modelled as `List Char`. -/

/-- Python-string alias. -/
abbrev Str := List Char

/-- The whitespace class of Python `str.strip()` and of the regex class
`\s` (space, tab, newline, carriage return, vertical tab, form feed). -/
def pyWS (c : Char) : Bool :=
  c = ' ' || c = '\t' || c = '\n' || c = '\r' || c = '\x0b' || c = '\x0c'

/-- Python `s.strip()`: remove leading and trailing whitespace. -/
def pyStrip (s : Str) : Str := (s.rdropWhile pyWS).dropWhile pyWS

/-- The issue-number normalization used throughout `collection.py`
(lines 75, 259-260, 273): `str(x).strip().lstrip('0') or '0'`. -/
def normalize_issue (s : Str) : Str :=
  let t := (pyStrip s).dropWhile (fun c => c = '0')
  if t = [] then ['0'] else t

/-- Matching semantics of the compiled issue sub-pattern
`r'0*' + re.escape(issue_num_clean)` built at `collection.py` line 77:
the candidate text is any run of zeros followed by the escaped (hence
literal) stripped number. -/
def issueSubMatches (issue_number : Str) (s : Str) : Bool :=
  (List.range (s.length + 1)).any
    (fun k => s == List.replicate k '0' ++ normalize_issue issue_number)

/-- The last character of a stripped string is not whitespace. -/
theorem pyStrip_getLast_not (s : Str) (h : pyStrip s ≠ []) :
    pyWS ((pyStrip s).getLast h) = false := by
  have hsuf : pyStrip s <:+ s.rdropWhile pyWS := List.dropWhile_suffix pyWS
  rcases hsuf with ⟨pre, hpre⟩
  have hw : s.rdropWhile pyWS ≠ [] := by
    intro hnil
    rw [hnil] at hpre
    rcases List.append_eq_nil.mp hpre with ⟨-, h2⟩
    exact h h2
  have hlast := List.rdropWhile_last_not pyWS s hw
  have hq : (s.rdropWhile pyWS).getLast? = (pyStrip s).getLast? := by
    rw [← hpre]
    exact List.getLast?_append_of_ne_nil pre h
  have h2 : (pyStrip s).getLast? = some ((pyStrip s).getLast h) :=
    List.getLast?_eq_getLast _ h
  have h3 : (s.rdropWhile pyWS).getLast? =
      some ((s.rdropWhile pyWS).getLast hw) :=
    List.getLast?_eq_getLast _ hw
  have h4 : (s.rdropWhile pyWS).getLast hw = (pyStrip s).getLast h := by
    have := h3.symm.trans (hq.trans h2)
    exact Option.some.inj this
  rw [← h4]
  simpa using hlast

/-- Prepending zeros to a stripped string survives the trailing strip. -/
theorem rdropWhile_pad (k : Nat) (s : Str) :
    (List.replicate k '0' ++ pyStrip s).rdropWhile pyWS =
      List.replicate k '0' ++ pyStrip s := by
  by_cases ht : pyStrip s = []
  · rw [ht, List.append_nil]
    cases k with
    | zero => rfl
    | succ n =>
      rw [List.replicate_succ' n '0']
      exact List.rdropWhile_concat_neg pyWS _ '0' (by decide)
  · have hdec := List.dropLast_append_getLast ht
    calc (List.replicate k '0' ++ pyStrip s).rdropWhile pyWS
        = ((List.replicate k '0' ++ (pyStrip s).dropLast) ++
            [(pyStrip s).getLast ht]).rdropWhile pyWS := by
          rw [List.append_assoc, hdec]
      _ = (List.replicate k '0' ++ (pyStrip s).dropLast) ++
            [(pyStrip s).getLast ht] := by
          apply List.rdropWhile_concat_neg
          simp only [pyStrip_getLast_not s ht, Bool.false_eq_true,
            not_false_eq_true]
      _ = List.replicate k '0' ++ pyStrip s := by
          rw [List.append_assoc, hdec]

/-- Prepending zeros to a stripped string survives the leading strip. -/
theorem dropWhile_ws_pad (k : Nat) (s : Str) :
    (List.replicate k '0' ++ pyStrip s).dropWhile pyWS =
      List.replicate k '0' ++ pyStrip s := by
  cases k with
  | zero =>
    show (pyStrip s).dropWhile pyWS = pyStrip s
    unfold pyStrip
    exact List.dropWhile_idempotent pyWS (s.rdropWhile pyWS)
  | succ n =>
    rw [List.replicate_succ]
    show (('0' : Char) :: _).dropWhile pyWS = _
    rw [List.dropWhile_cons]
    simp [pyWS]

/-- Dropping zeros ignores a prepended zero run. -/
theorem dropWhile_zero_pad (k : Nat) (x : Str) :
    (List.replicate k '0' ++ x).dropWhile (fun c => c = '0') =
      x.dropWhile (fun c => c = '0') := by
  induction k with
  | zero => rfl
  | succ n ih =>
    rw [List.replicate_succ]
    show (('0' : Char) :: _).dropWhile _ = _
    rw [List.dropWhile_cons]
    simp [ih]

/-- C5: issue-number normalization strips leading zeros and maps an empty
result to `"0"`; every zero-padded variant of a stripped number normalizes
to the same canonical key; the issue sub-pattern `0*` + escaped stripped
number matches every such variant; and a stripped number that does not
begin with a zero round-trips exactly (never coerced to a float). -/
theorem c5_issue_normalization (s : Str) (k : Nat) :
    normalize_issue (List.replicate k '0' ++ pyStrip s) = normalize_issue s ∧
    issueSubMatches s (List.replicate k '0' ++ normalize_issue s) = true ∧
    (∀ c rest, pyStrip s = c :: rest → c ≠ '0' →
      normalize_issue s = pyStrip s) ∧
    ((∀ c ∈ pyStrip s, c = '0') → normalize_issue s = ['0']) := by
  have hstrip : pyStrip (List.replicate k '0' ++ pyStrip s) =
      List.replicate k '0' ++ pyStrip s := by
    calc pyStrip (List.replicate k '0' ++ pyStrip s)
        = ((List.replicate k '0' ++ pyStrip s).rdropWhile pyWS).dropWhile
            pyWS := rfl
      _ = (List.replicate k '0' ++ pyStrip s).dropWhile pyWS := by
          rw [rdropWhile_pad k s]
      _ = List.replicate k '0' ++ pyStrip s := dropWhile_ws_pad k s
  refine ⟨?_, ?_, ?_, ?_⟩
  · simp only [normalize_issue]
    rw [hstrip, dropWhile_zero_pad]
  · simp only [issueSubMatches]
    rw [List.any_eq_true]
    refine ⟨k, List.mem_range.mpr ?_, ?_⟩
    · rw [List.length_append, List.length_replicate]
      omega
    · exact beq_self_eq_true _
  · intro c rest hc hne
    simp only [normalize_issue]
    rw [hc, List.dropWhile_cons]
    have hdec : decide (c = '0') = false := by simpa using hne
    rw [hdec]
    simp
  · intro hall
    simp only [normalize_issue]
    rw [List.dropWhile_eq_nil_iff.mpr (by simpa using hall)]
    rfl

/-- Witness for C5: the variants `"1"`, `"01"`, `"001"` all normalize to
`"1"` and are all matched by the issue sub-pattern for `"01"`. -/
theorem c5_issue_normalization_witness :
    normalize_issue (List.replicate 2 '0' ++ pyStrip ['1']) =
      normalize_issue ['1'] ∧
    issueSubMatches ['0', '1'] (List.replicate 2 '0' ++
      normalize_issue ['0', '1']) = true ∧
    normalize_issue ['1', '.', '5'] = pyStrip ['1', '.', '5'] ∧
    normalize_issue ['0', '0'] = ['0'] := by
  have h := c5_issue_normalization ['1'] 2
  have h2 := c5_issue_normalization ['0', '1'] 2
  have h3 := c5_issue_normalization ['1', '.', '5'] 0
  have h4 := c5_issue_normalization ['0', '0'] 0
  exact ⟨h.1, h2.2.1,
    h3.2.2.1 '1' ['.', '5'] (by decide) (by decide),
    h4.2.2.2 (by decide)⟩

/-! ### Regex engine

An executable model of the subset of Python `re` that the pattern builder
of `generate_filename_pattern` emits.  Matching is by Brzozowski
derivatives; `re.IGNORECASE` is modelled by lower-casing literals at parse
time and the input at search time.  A pattern using a construct outside
this subset fails to compile, which the embedding treats as a construction
failure (the `except` branch of the source). -/

/-- One item of a character class. -/
inductive ClsItem where
  | one (c : Char)
  | rng (a b : Char)
  | digit
  | nondigit
  | space
  | nonspace
  | word
  | nonword
  deriving DecidableEq, Repr

/-- The `\w` class: alphanumeric or underscore. -/
def isWordChar (c : Char) : Bool := c.isAlphanum || c = '_'

/-- Does a class item match a character? -/
def clsItemMatch (c : Char) : ClsItem → Bool
  | .one a => c = a
  | .rng a b => a ≤ c && c ≤ b
  | .digit => c.isDigit
  | .nondigit => !c.isDigit
  | .space => pyWS c
  | .nonspace => !pyWS c
  | .word => isWordChar c
  | .nonword => !isWordChar c

/-- Regular-expression abstract syntax. -/
inductive RE where
  | emp
  | eps
  | chr (c : Char)
  | cls (neg : Bool) (items : List ClsItem)
  | cat (a b : RE)
  | alt (a b : RE)
  | star (a : RE)
  deriving DecidableEq, Repr

/-- Does the regex accept the empty string? -/
def RE.nullable : RE → Bool
  | .emp => false
  | .eps => true
  | .chr _ => false
  | .cls _ _ => false
  | .cat a b => a.nullable && b.nullable
  | .alt a b => a.nullable || b.nullable
  | .star _ => true

/-- Smart concatenation (keeps derivative terms small). -/
def RE.catS : RE → RE → RE
  | .emp, _ => .emp
  | .eps, b => b
  | _, .emp => .emp
  | a, .eps => a
  | a, b => .cat a b

/-- Smart alternation (keeps derivative terms small). -/
def RE.altS : RE → RE → RE
  | .emp, b => b
  | a, .emp => a
  | a, b => if a = b then a else .alt a b

/-- Brzozowski derivative with respect to one character. -/
def RE.deriv : RE → Char → RE
  | .emp, _ => .emp
  | .eps, _ => .emp
  | .chr a, c => if a = c then .eps else .emp
  | .cls n items, c => if (items.any (clsItemMatch c)) != n then .eps else .emp
  | .cat a b, c =>
    if a.nullable then .altS (.catS (a.deriv c) b) (b.deriv c)
    else .catS (a.deriv c) b
  | .alt a b, c => .altS (a.deriv c) (b.deriv c)
  | .star a, c => .catS (a.deriv c) (.star a)

/-- Whole-string match by iterated derivatives. -/
def reFullMatch (r : RE) (s : Str) : Bool := (s.foldl RE.deriv r).nullable

/-- A compiled pattern: body plus whether the source ended in `$`. -/
structure Regex where
  re : RE
  anchoredEnd : Bool
  deriving DecidableEq, Repr

/-- `compiled.search(text)` under `re.IGNORECASE`: some substring matches;
when the pattern is `$`-anchored the substring must end at the end of the
text. -/
def reSearch (rx : Regex) (text : Str) : Bool :=
  let s := text.map Char.toLower
  if rx.anchoredEnd then
    s.tails.any (fun t => reFullMatch rx.re t)
  else
    s.tails.any (fun t =>
      (List.range (t.length + 1)).any (fun n => reFullMatch rx.re (t.take n)))

/-! ### Regex parser (the modelled `re.compile`) -/

/-- Class-escape interpretation inside `[...]`; numeric escapes are
outside the modelled subset. -/
def escCls : Char → Option ClsItem
  | 'd' => some .digit
  | 'D' => some .nondigit
  | 's' => some .space
  | 'S' => some .nonspace
  | 'w' => some .word
  | 'W' => some .nonword
  | c => if c.isDigit then none else some (.one c.toLower)

/-- Parse one class atom: the item and, when it is a plain character, that
character (usable as a range endpoint). -/
def parseClsAtom : Str → Option (ClsItem × Option Char × Str)
  | [] => none
  | '\\' :: rest =>
    match rest with
    | [] => none
    | c :: rest =>
      match escCls c with
      | some (.one a) => some (.one a, some a, rest)
      | some it => some (it, none, rest)
      | none => none
  | c :: rest => some (.one c.toLower, some c.toLower, rest)

/-- Parse the items of a character class up to the closing `]`. -/
def parseCls : Nat → Str → List ClsItem → Bool → Option (List ClsItem × Str)
  | 0, _, _, _ => none
  | _ + 1, [], _, _ => none
  | fuel + 1, ']' :: rest, acc, first =>
    if first then parseCls fuel rest (.one ']' :: acc) false
    else some (acc.reverse, rest)
  | fuel + 1, s, acc, _ =>
    match parseClsAtom s with
    | none => none
    | some (it, oc, rest) =>
      match oc, rest with
      | some a, '-' :: (r2 : Str) =>
        match r2 with
        | [] => none
        | ']' :: _ => parseCls fuel rest (it :: acc) false
        | _ =>
          match parseClsAtom r2 with
          | some (_, some b, r3) =>
            if a ≤ b then parseCls fuel r3 (.rng a b :: acc) false
            else none
          | _ => none
      | _, _ => parseCls fuel rest (it :: acc) false

/-- Iterated concatenation for the `{n}` quantifier. -/
def powRE (a : RE) : Nat → RE
  | 0 => .eps
  | n + 1 => RE.catS a (powRE a n)

/-- String-to-number for quantifier digits. -/
def digitsToNat (ds : Str) : Nat :=
  ds.foldl (fun acc c => acc * 10 + (c.toNat - '0'.toNat)) 0

mutual

/-- Parse an alternation `seq ('|' seq)*`. -/
def parseAltRE : Nat → Str → Option (RE × Str)
  | 0, _ => none
  | fuel + 1, s =>
    match parseSeqRE fuel s with
    | none => none
    | some (a, r) =>
      match r with
      | '|' :: r2 =>
        match parseAltRE fuel r2 with
        | none => none
        | some (b, r3) => some (RE.altS a b, r3)
      | _ => some (a, r)

/-- Parse a sequence of quantified atoms, stopping at `|`, `)` or the end. -/
def parseSeqRE : Nat → Str → Option (RE × Str)
  | 0, _ => none
  | fuel + 1, s =>
    match s with
    | [] => some (.eps, [])
    | ')' :: _ => some (.eps, s)
    | '|' :: _ => some (.eps, s)
    | _ =>
      match parseAtomRE fuel s with
      | none => none
      | some (a, r) =>
        match parseQuantsRE fuel a r with
        | none => none
        | some (a, r) =>
          match parseSeqRE fuel r with
          | none => none
          | some (b, r2) => some (RE.catS a b, r2)

/-- Apply any quantifiers (`*`, `+`, `?`, `{n}`) following an atom. -/
def parseQuantsRE : Nat → RE → Str → Option (RE × Str)
  | 0, _, _ => none
  | fuel + 1, a, s =>
    match s with
    | '*' :: r => parseQuantsRE fuel (.star a) r
    | '+' :: r => parseQuantsRE fuel (RE.catS a (.star a)) r
    | '?' :: r => parseQuantsRE fuel (RE.altS a .eps) r
    | '\x7b' :: r =>
      let ds := r.takeWhile Char.isDigit
      match r.drop ds.length with
      | '\x7d' :: r2 =>
        if ds = [] then some (a, s)
        else parseQuantsRE fuel (powRE a (digitsToNat ds)) r2
      | ',' :: _ => none
      | _ => some (a, s)
    | _ => some (a, s)

/-- Parse one atom. -/
def parseAtomRE : Nat → Str → Option (RE × Str)
  | 0, _ => none
  | fuel + 1, s =>
    match s with
    | [] => none
    | '(' :: '?' :: ':' :: rest =>
      match parseAltRE fuel rest with
      | some (a, ')' :: r2) => some (a, r2)
      | _ => none
    | '(' :: '?' :: _ => none
    | '(' :: rest =>
      match parseAltRE fuel rest with
      | some (a, ')' :: r2) => some (a, r2)
      | _ => none
    | '[' :: '^' :: rest =>
      match parseCls fuel rest [] true with
      | some (items, r) => some (.cls true items, r)
      | none => none
    | '[' :: rest =>
      match parseCls fuel rest [] true with
      | some (items, r) => some (.cls false items, r)
      | none => none
    | '.' :: rest => some (.cls true [.one '\n'], rest)
    | '\\' :: c :: rest =>
      match escCls c with
      | some it =>
        if c = 'A' ∨ c = 'Z' ∨ c = 'b' ∨ c = 'B' ∨ c = 'G' then none
        else some (.cls false [it], rest)
      | none => none
    | '\\' :: [] => none
    | '$' :: _ => none
    | '*' :: _ => none
    | '+' :: _ => none
    | '?' :: _ => none
    | c :: rest => some (.chr c.toLower, rest)

end

/-- Count of trailing backslashes (decides whether a final `$` is escaped). -/
def trailingBackslashCount (s : Str) : Nat :=
  (s.reverse.takeWhile (fun c => c = '\\')).length

/-- The modelled `re.compile`: strip an unescaped final `$` into the
end-anchor flag, then parse the body; `none` is a construction failure. -/
def re_compile (s : Str) : Option Regex :=
  let stripDollar :=
    match s.getLast? with
    | some '$' =>
      if trailingBackslashCount s.dropLast % 2 = 1 then (s, false)
      else (s.dropLast, true)
    | _ => (s, false)
  match parseAltRE (stripDollar.1.length * 2 + 4) stripDollar.1 with
  | some (re, []) => some { re := re, anchoredEnd := stripDollar.2 }
  | _ => none

/-! ### Pattern builder (`generate_filename_pattern`) -/

/-- `re.escape` (Python 3.7+): prefix a backslash to the characters that
can be special in a regex, leave everything else alone. -/
def reEscapeChar (c : Char) : Str :=
  if c ∈ ['(', ')', '[', ']', '\x7b', '\x7d', '?', '*', '+', '-', '|',
          '^', '$', '\\', '.', '&', '~', '#', ' ', '\t', '\n', '\r',
          '\x0b', '\x0c'] then ['\\', c] else [c]

/-- `re.escape` over a string. -/
def reEscape (s : Str) : Str := s.foldr (fun c acc => reEscapeChar c ++ acc) []

/-- Python `s.replace(pat, rep)` (left-to-right, non-overlapping), with
fuel equal to the input length; `pat` is never empty at the call sites. -/
def strReplaceGo (pat rep : Str) : Nat → Str → Str
  | 0, s => s
  | _ + 1, [] => []
  | fuel + 1, c :: rest =>
    if pat.isPrefixOf (c :: rest) then
      rep ++ strReplaceGo pat rep fuel ((c :: rest).drop pat.length)
    else
      c :: strReplaceGo pat rep fuel rest

/-- Python `s.replace(pat, rep)`. -/
def strReplace (s pat rep : Str) : Str :=
  if pat = [] then s else strReplaceGo pat rep s.length s

/-- The punctuation class of `re.sub(r'[\s\-_:;,\.]+', ' ', ...)`
(`collection.py` line 56). -/
def punctCls (c : Char) : Bool :=
  pyWS c || c = '-' || c = '_' || c = ':' || c = ';' || c = ',' || c = '.'

/-- `re.sub(r'[\s\-_:;,\.]+', ' ', s)`: squash every punctuation run to a
single space. -/
def squashPunct : Nat → Str → Str
  | 0, s => s
  | _ + 1, [] => []
  | fuel + 1, c :: rest =>
    if punctCls c then ' ' :: squashPunct fuel (rest.dropWhile punctCls)
    else c :: squashPunct fuel rest

/-- Python `s.split()`: split on whitespace runs, dropping empties. -/
def pySplit : Nat → Str → List Str
  | 0, _ => []
  | fuel + 1, s =>
    match s.dropWhile pyWS with
    | [] => []
    | c :: rest =>
      let w := (c :: rest).takeWhile (fun c => !pyWS c)
      w :: pySplit fuel ((c :: rest).drop w.length)

/-- Lower-case a Python string. -/
def lowerStr (s : Str) : Str := s.map Char.toLower

/-- `OPTIONAL_WORDS = {'and', 'the', 'of', 'or', 'vs', 'versus'}`
(`collection.py` line 60). -/
def OPTIONAL_WORDS : List Str :=
  ["and".toList, "the".toList, "of".toList, "or".toList, "vs".toList,
   "versus".toList]

/-- The word-by-word series sub-pattern loop (`collection.py` lines 62-72):
optional words become optional groups carrying their separator; other words
are joined by the separator, with none after the last. -/
def buildSeriesParts (sep : Str) : List Str → Str
  | [] => []
  | [w] =>
    if lowerStr w ∈ OPTIONAL_WORDS then
      "(?:".toList ++ reEscape w ++ sep ++ ")?".toList
    else reEscape w
  | w :: rest =>
    (if lowerStr w ∈ OPTIONAL_WORDS then
      "(?:".toList ++ reEscape w ++ sep ++ ")?".toList
     else reEscape w ++ sep) ++ buildSeriesParts sep rest

/-- `generate_filename_pattern` (`collection.py` lines 7-95): build the
regex source text exactly as the Python string pipeline does, then compile
it; `none` models both the empty-input guard and the `except` branch. -/
def generate_filename_pattern (custom_pattern series_name issue_number :
    Str) : Option Regex :=
  if custom_pattern = [] ∨ series_name = [] then none
  else
    let pattern := strReplace custom_pattern "\x7bseries_name\x7d".toList
      "<<<SERIES>>>".toList
    let pattern := strReplace pattern "\x7bissue_number\x7d".toList
      "<<<ISSUE>>>".toList
    let pattern := strReplace pattern "\x7byear\x7d".toList
      "<<<YEAR>>>".toList
    let pattern := strReplace pattern "(".toList "\\(".toList
    let pattern := strReplace pattern ")".toList "\\)".toList
    let pre_name :=
      if "the ".toList.isPrefixOf (lowerStr series_name) then
        ("(?:The[\\s\\-_]+)?".toList, series_name.drop 4)
      else (([] : Str), series_name)
    let working_name := pre_name.2
    let temp_name := working_name.filter (fun c => c ≠ '\x27' ∧ c ≠ '&')
    let normalized_name := pyStrip (squashPunct temp_name.length temp_name)
    let sep := "[\\s\\-_:\x27\\.&]*".toList
    let words := pySplit (normalized_name.length + 1) normalized_name
    let series_pattern := pre_name.1 ++ buildSeriesParts sep words
    let issue_num_clean := normalize_issue issue_number
    let issue_pattern := "0*".toList ++ reEscape issue_num_clean
    let pattern := strReplace pattern "<<<SERIES>>>".toList
      ("(?:".toList ++ series_pattern ++ ")".toList)
    let pattern := strReplace pattern "<<<ISSUE>>>".toList
      ("(".toList ++ issue_pattern ++ ")".toList)
    let pattern := strReplace pattern "<<<YEAR>>>".toList
      "\\d\x7b4\x7d".toList
    let pattern := strReplace pattern ") (".toList
      ")[\\s\\-_:\x27\\.&]+(".toList
    let pattern := pattern ++ ".*\\.(?:cbz|cbr|zip|rar)$".toList
    re_compile pattern

/-! ### Collection matcher data model -/

/-- The dict returned by `extract_comicinfo` (`collection.py` lines 120-125);
`findtext(_, '')` defaults every field to the empty string. -/
structure ComicInfo where
  series : Str
  number : Str
  volume : Str
  year : Str
  deriving DecidableEq, Repr

/-- One row of the collection-status cache (`CollectionStatusEntry`). -/
structure CacheEntry where
  series_id : Int
  issue_id : Int
  issue_number : Str
  found : Bool
  file_path : Option Str
  file_mtime : Option Int
  matched_via : Option Str
  deriving DecidableEq, Repr

/-- The filesystem and database collaborators of the matcher, as oracles.
`getmtime _ = none` models `os.path.getmtime` raising `OSError`;
`listdir = none` models `os.listdir` raising; `read_comicinfo` is the
result of reading `ComicInfo.xml` out of a zip-readable archive (`none`
when absent or unreadable); `cached_status` is
`get_collection_status_for_series`; `custom_rename_pattern` is
`get_user_preference('custom_rename_pattern', '') or ''`. -/
structure Env where
  path_exists : Str → Bool
  getmtime : Str → Option Int
  listdir : Option (List Str)
  read_comicinfo : Str → Option ComicInfo
  cached_status : Int → List CacheEntry
  custom_rename_pattern : Str

/-- The duck-typed `series_info` argument collapsed to its two used fields
(`collection.py` lines 160-161). -/
structure SeriesInfo where
  id : Option Int
  name : Str

/-- The duck-typed issue object collapsed to its two used fields; a missing
or `None` number is the empty string, exactly what the
`str(getattr(issue, 'number', '') or ...)` coercion produces. -/
structure Issue where
  number : Str
  id : Option Int

/-- One value of the returned mapping. -/
structure IssueResult where
  found : Bool
  file_path : Option Str
  deriving DecidableEq, Repr

/-- One record of the scan-local `file_metadata` dict (the lazily-loaded
`comicinfo` field is omitted: extraction is a pure oracle here, so lazy
and eager loading coincide). -/
structure FileMeta where
  filename : Str
  path : Str
  mtime : Option Int
  deriving DecidableEq, Repr

/-- Case-insensitive `str.endswith`. -/
def lowerEndsWith (s suffix : Str) : Bool := suffix.isSuffixOf (lowerStr s)

/-- `filename.lower().endswith(('.cbz', '.cbr', '.zip', '.rar'))`. -/
def isComicFile (filename : Str) : Bool :=
  lowerEndsWith filename ".cbz".toList || lowerEndsWith filename ".cbr".toList ||
  lowerEndsWith filename ".zip".toList || lowerEndsWith filename ".rar".toList

/-- `os.path.join` for the relative POSIX names the matcher uses. -/
def pathJoin (d f : Str) : Str :=
  if d = [] then f
  else if d.getLast? = some '/' then d ++ f
  else d ++ '/' :: f

/-- `extract_comicinfo` (`collection.py` lines 98-129): only `.cbz`/`.zip`
files are opened; everything else, and every archive/parse failure, yields
`None`. -/
def extract_comicinfo (env : Env) (file_path : Str) : Option ComicInfo :=
  if lowerEndsWith file_path ".cbz".toList ||
      lowerEndsWith file_path ".zip".toList then
    env.read_comicinfo file_path
  else none

/-- Step 2 of the matcher (`collection.py` lines 201-215): keep the comic
files in listing order, recording path and mtime (`none` when the stat
fails). -/
def scanFiles (env : Env) (mapped_path : Str) (names : List Str) :
    List FileMeta :=
  (names.filter isComicFile).map (fun fn =>
    { filename := fn, path := pathJoin mapped_path fn,
      mtime := env.getmtime (pathJoin mapped_path fn) })

/-- Python substring containment `needle in hay`. -/
def strContains (hay needle : Str) : Bool :=
  (List.range (hay.length + 1)).any (fun i => needle.isPrefixOf (hay.drop i))

/-- The per-file test of the embedded-metadata tier (`collection.py`
lines 251-269): a non-empty embedded number equal after normalization, and
loose case-insensitive series containment in either direction (an empty
embedded series passes). -/
def comicinfoPred (env : Env) (series_name issue_num : Str) (f : FileMeta) :
    Bool :=
  match extract_comicinfo env f.path with
  | none => false
  | some ci =>
    decide (ci.number ≠ []) &&
    (normalize_issue ci.number == normalize_issue issue_num) &&
    (let meta_series := lowerStr ci.series
     decide (meta_series = []) ||
       strContains meta_series (lowerStr series_name) ||
       strContains (lowerStr series_name) meta_series)

/-- The separator class `[\s\-_]` of the first generic pattern. -/
def sepChar (c : Char) : Bool := pyWS c || c = '-' || c = '_'

/-- The delimiter class `[\s\-_\.\(]` of the first generic pattern. -/
def delimChar1 (c : Char) : Bool :=
  pyWS c || c = '-' || c = '_' || c = '.' || c = '('

/-- Matching semantics of the fragment `0*NUM(?:TAIL|$)` at the start of
`rest`: some run of zeros, then the literal number, then the end or a
character accepted by `tailOk`. -/
def zerosNumThen (tailOk : Char → Bool) (num rest : Str) : Bool :=
  (List.range (rest.length + 1)).any (fun k =>
    (List.replicate k '0').isPrefixOf rest &&
    num.isPrefixOf (rest.drop k) &&
    (match rest.drop (k + num.length) with
     | [] => true
     | c :: _ => tailOk c))

/-- Search semantics of the generic pattern
`[\s\-_]0*NUM(?:[\s\-_\.\(]|$)` (`collection.py` line 275). -/
def gen1 (num : Str) : Str → Bool
  | [] => false
  | c :: rest => (sepChar c && zerosNumThen delimChar1 num rest) || gen1 num rest

/-- Search semantics of the generic pattern `#0*NUM(?:\D|$)`
(`collection.py` line 276). -/
def gen2 (num : Str) : Str → Bool
  | [] => false
  | c :: rest =>
    ((c == '#') && zerosNumThen (fun c => !c.isDigit) num rest) || gen2 num rest

/-- The generic filename tier test for one filename (`collection.py`
lines 272-288): the two patterns in order, case-insensitively, against the
escaped normalized number. -/
def genericMatches (issue_num filename : Str) : Bool :=
  let n := lowerStr (normalize_issue issue_num)
  let f := lowerStr filename
  gen1 n f || gen2 n f

/-- Tier 4a (`collection.py` lines 238-247): only with a configured
template and series name; the first file whose name the compiled pattern
matches. -/
def tierPattern (env : Env) (series_name issue_num : Str)
    (files : List FileMeta) : Option FileMeta :=
  if env.custom_rename_pattern ≠ [] ∧ series_name ≠ [] then
    match generate_filename_pattern env.custom_rename_pattern series_name
        issue_num with
    | some rx => files.find? (fun f => reSearch rx f.filename)
    | none => none
  else none

/-- Tier 4b (`collection.py` lines 249-269): first file in listing order
whose embedded metadata agrees. -/
def tierComicinfo (env : Env) (series_name issue_num : Str)
    (files : List FileMeta) : Option FileMeta :=
  files.find? (comicinfoPred env series_name issue_num)

/-- Tier 4c (`collection.py` lines 271-288): first file in listing order
matching a generic pattern. -/
def tierFilename (issue_num : Str) (files : List FileMeta) :
    Option FileMeta :=
  files.find? (fun f => genericMatches issue_num f.filename)

/-- The per-issue tier cascade: the first tier that succeeds determines
the matched file and the `matched_via` tag. -/
def matchIssue (env : Env) (series_name issue_num : Str)
    (files : List FileMeta) : Option (FileMeta × Str) :=
  match tierPattern env series_name issue_num files with
  | some f => some (f, "pattern".toList)
  | none =>
    match tierComicinfo env series_name issue_num files with
    | some f => some (f, "comicinfo".toList)
    | none =>
      match tierFilename issue_num files with
      | some f => some (f, "filename".toList)
      | none => none

/-- The observable outcome of one matcher call: the returned mapping, the
batch handed to `save_collection_status_bulk` (empty when the save is not
called), and whether `os.listdir` was reached. -/
structure MatchOutcome where
  results : List (Str × IssueResult)
  cacheWrites : List CacheEntry
  listedDir : Bool
  deriving Repr

/-- Python `abs`, written executably so concrete cache validations
evaluate. -/
def intAbs (x : Int) : Int := if x < 0 then -x else x

/-- Step-1 validation of a single cache entry (`collection.py`
lines 169-183): a falsy `file_path` skips every check; a missing file or a
failing stat invalidates; the mtime comparison runs only when the cached
mtime is truthy (non-null and non-zero). -/
def entryValid (env : Env) (e : CacheEntry) : Bool :=
  match e.file_path with
  | none => true
  | some p =>
    if p = [] then true
    else if !env.path_exists p then false
    else
      match env.getmtime p with
      | none => false
      | some cur =>
        match e.file_mtime with
        | none => true
        | some mt => if mt ≠ 0 ∧ intAbs (cur - mt) > 1 then false else true

/-- Rebuild the returned mapping from the cached rows (`collection.py`
lines 187-191). -/
def cacheResults (cached : List CacheEntry) : List (Str × IssueResult) :=
  cached.foldl
    (fun r e => dictSet r e.issue_number ⟨e.found, e.file_path⟩) []

/-- The per-issue body of step 4 (`collection.py` lines 227-305): skip a
falsy issue number, run the tier cascade, record the result, and stage a
cache row when both ids are truthy. -/
def processIssue (env : Env) (series_id : Option Int) (series_name : Str)
    (files : List FileMeta)
    (acc : List (Str × IssueResult) × List CacheEntry) (issue : Issue) :
    List (Str × IssueResult) × List CacheEntry :=
  let issue_num := issue.number
  if issue_num = [] then acc
  else
    let m := matchIssue env series_name issue_num files
    let matched_file := m.map (fun fm => fm.1.path)
    let results := dictSet acc.1 issue_num ⟨m.isSome, matched_file⟩
    let entries :=
      if truthyId series_id && truthyId issue.id then
        acc.2 ++ [{ series_id := (series_id.getD 0),
                    issue_id := (issue.id.getD 0),
                    issue_number := issue_num,
                    found := m.isSome,
                    file_path := matched_file,
                    file_mtime :=
                      match matched_file, m with
                      | some p, some (fm, _) =>
                        if p = [] then none else fm.mtime
                      | _, _ => none,
                    matched_via := m.map (fun fm => fm.2) }]
      else acc.2
    (results, entries)

/-- Steps 2-5 of the matcher (`collection.py` lines 197-312): scan the
directory (a listing failure returns the empty mapping with nothing
saved), match every issue, and stage the bulk cache write. -/
def scanPath (env : Env) (mapped_path : Str) (issues : List Issue)
    (series_id : Option Int) (series_name : Str) : MatchOutcome :=
  match env.listdir with
  | none => { results := [], cacheWrites := [], listedDir := true }
  | some names =>
    let files := scanFiles env mapped_path names
    let acc := issues.foldl (processIssue env series_id series_name files)
      ([], [])
    { results := acc.1, cacheWrites := acc.2, listedDir := true }

/-- `match_issues_to_collection` (`collection.py` lines 132-312): the
cache fast path (use_cache, truthy series id, non-empty fully-valid cached
set) returns the rebuilt mapping without listing the directory; any
invalid entry falls through to the full scan. -/
def match_issues_to_collection (env : Env) (mapped_path : Str)
    (issues : List Issue) (series_info : SeriesInfo) (use_cache : Bool) :
    MatchOutcome :=
  if use_cache && truthyId series_info.id then
    if env.cached_status (series_info.id.getD 0) = [] then
      scanPath env mapped_path issues series_info.id series_info.name
    else if (env.cached_status (series_info.id.getD 0)).all
        (entryValid env) then
      { results := cacheResults (env.cached_status (series_info.id.getD 0)),
        cacheWrites := [], listedDir := false }
    else scanPath env mapped_path issues series_info.id series_info.name
  else scanPath env mapped_path issues series_info.id series_info.name

/-! ### Matcher theorems -/

/-- `find?` returns the first element satisfying the predicate. -/
theorem find?_split {α} (p : α → Bool) :
    ∀ (l : List α) (a : α), l.find? p = some a →
      p a = true ∧ ∃ l1 l2, l = l1 ++ a :: l2 ∧ ∀ x ∈ l1, p x = false := by
  intro l
  induction l with
  | nil => intro a h; cases h
  | cons b rest ih =>
    intro a h
    by_cases hb : p b = true
    · rw [List.find?_cons_of_pos _ hb] at h
      cases h
      exact ⟨hb, [], rest, rfl, fun x hx => absurd hx (List.not_mem_nil x)⟩
    · have hb' : p b = false := by
        cases hpb : p b
        · rfl
        · exact absurd hpb hb
      rw [List.find?_cons_of_neg _ hb] at h
      rcases ih a h with ⟨hpa, l1, l2, hsplit, hprev⟩
      refine ⟨hpa, b :: l1, l2, by rw [hsplit]; rfl, ?_⟩
      intro x hx
      rcases List.mem_cons.mp hx with hx | hx
      · rw [hx]; exact hb'
      · exact hprev x hx

/-- C6: the pattern compiler returns null (never an exception) when the
template or the series name is empty; and when it returns null the caller
skips the pattern tier and falls through to the embedded-metadata and
generic-filename tiers. -/
theorem c6_pattern_compiler_safe (custom_pattern series_name issue_number :
    Str) (env : Env) (files : List FileMeta) :
    ((custom_pattern = [] ∨ series_name = []) →
      generate_filename_pattern custom_pattern series_name issue_number =
        none) ∧
    (generate_filename_pattern env.custom_rename_pattern series_name
        issue_number = none →
      tierPattern env series_name issue_number files = none ∧
      matchIssue env series_name issue_number files =
        (match tierComicinfo env series_name issue_number files with
         | some f => some (f, "comicinfo".toList)
         | none =>
           match tierFilename issue_number files with
           | some f => some (f, "filename".toList)
           | none => none)) := by
  constructor
  · intro h
    unfold generate_filename_pattern
    rw [if_pos h]
  · intro hgen
    have hp : tierPattern env series_name issue_number files = none := by
      unfold tierPattern
      split
      · rw [hgen]
      · rfl
    refine ⟨hp, ?_⟩
    unfold matchIssue
    rw [hp]

/-- An environment with a malformed naming template (an unterminated
character class), for the C6 witness. -/
def c6Env : Env :=
  { path_exists := fun _ => true,
    getmtime := fun _ => some 50,
    listdir := some [],
    read_comicinfo := fun _ => none,
    cached_status := fun _ => [],
    custom_rename_pattern := "[x\x7bissue_number\x7d".toList }

/-- Witness for C6: an empty template compiles to null, a malformed
template compiles to null, and with the malformed template configured the
per-issue match falls through past the pattern tier. -/
theorem c6_pattern_compiler_safe_witness :
    generate_filename_pattern [] "x".toList "1".toList = none ∧
    generate_filename_pattern "[x\x7bissue_number\x7d".toList "abc".toList
      "1".toList = none ∧
    (tierPattern c6Env "abc".toList "1".toList [] = none ∧
     matchIssue c6Env "abc".toList "1".toList [] =
       (match tierComicinfo c6Env "abc".toList "1".toList [] with
        | some f => some (f, "comicinfo".toList)
        | none =>
          match tierFilename "1".toList [] with
          | some f => some (f, "filename".toList)
          | none => none)) :=
  ⟨(c6_pattern_compiler_safe [] "x".toList "1".toList c6Env []).1
      (Or.inl rfl),
   by decide,
   (c6_pattern_compiler_safe "[x\x7bissue_number\x7d".toList "abc".toList
      "1".toList c6Env []).2 (by decide)⟩

/-- C2: the per-issue match tries the pattern tier (only when a template
and series name are configured), then the embedded-metadata tier, then the
generic-filename tier; the first tier to succeed determines the result, so
a pattern-tier match overrides any would-be generic match; within each
tier the first file in directory-listing order wins; and when every tier
fails the issue is recorded as not found with a null file path. -/
theorem c2_tier_order (env : Env) (series_id : Option Int)
    (series_name issue_num : Str) (files : List FileMeta) :
    ((env.custom_rename_pattern = [] ∨ series_name = []) →
      tierPattern env series_name issue_num files = none) ∧
    (∀ f, tierPattern env series_name issue_num files = some f →
      matchIssue env series_name issue_num files =
        some (f, "pattern".toList)) ∧
    (∀ f, tierPattern env series_name issue_num files = none →
      tierComicinfo env series_name issue_num files = some f →
      matchIssue env series_name issue_num files =
        some (f, "comicinfo".toList)) ∧
    (∀ f, tierPattern env series_name issue_num files = none →
      tierComicinfo env series_name issue_num files = none →
      tierFilename issue_num files = some f →
      matchIssue env series_name issue_num files =
        some (f, "filename".toList)) ∧
    (tierPattern env series_name issue_num files = none →
      tierComicinfo env series_name issue_num files = none →
      tierFilename issue_num files = none →
      matchIssue env series_name issue_num files = none) ∧
    (∀ rx f, generate_filename_pattern env.custom_rename_pattern series_name
        issue_num = some rx →
      tierPattern env series_name issue_num files = some f →
      reSearch rx f.filename = true ∧ ∃ l1 l2, files = l1 ++ f :: l2 ∧
        ∀ g ∈ l1, reSearch rx g.filename = false) ∧
    (∀ f, tierComicinfo env series_name issue_num files = some f →
      comicinfoPred env series_name issue_num f = true ∧
      ∃ l1 l2, files = l1 ++ f :: l2 ∧
        ∀ g ∈ l1, comicinfoPred env series_name issue_num g = false) ∧
    (∀ f, tierFilename issue_num files = some f →
      genericMatches issue_num f.filename = true ∧
      ∃ l1 l2, files = l1 ++ f :: l2 ∧
        ∀ g ∈ l1, genericMatches issue_num g.filename = false) ∧
    (∀ res ents iid, matchIssue env series_name issue_num files = none →
      issue_num ≠ [] →
      (processIssue env series_id series_name files (res, ents)
          { number := issue_num, id := iid }).1 =
        dictSet res issue_num { found := false, file_path := none }) := by
  refine ⟨?_, ?_, ?_, ?_, ?_, ?_, ?_, ?_, ?_⟩
  · intro h
    unfold tierPattern
    rw [if_neg]
    intro hc
    rcases h with h | h
    · exact hc.1 h
    · exact hc.2 h
  · intro f hf
    unfold matchIssue
    rw [hf]
  · intro f hp hc
    unfold matchIssue
    rw [hp, hc]
  · intro f hp hc hg
    unfold matchIssue
    rw [hp, hc, hg]
  · intro hp hc hg
    unfold matchIssue
    rw [hp, hc, hg]
  · intro rx f hgen hf
    unfold tierPattern at hf
    split at hf
    · rw [hgen] at hf
      exact find?_split _ files f hf
    · cases hf
  · intro f hf
    exact find?_split _ files f hf
  · intro f hf
    exact find?_split _ files f hf
  · intro res ents iid hm hne
    unfold processIssue
    rw [if_neg hne, hm]
    rfl

/-- Environment for the C2 witness: a configured template, two files in
listing order. -/
def c2Env : Env :=
  { path_exists := fun _ => true,
    getmtime := fun _ => some 50,
    listdir := some ["other 1.cbz".toList, "x 1.cbz".toList],
    read_comicinfo := fun _ => none,
    cached_status := fun _ => [],
    custom_rename_pattern :=
      "\x7bseries_name\x7d \x7bissue_number\x7d".toList }

/-- The scanned files of the C2 witness. -/
def c2Files : List FileMeta :=
  scanFiles c2Env "d".toList ["other 1.cbz".toList, "x 1.cbz".toList]

/-- The file the pattern tier picks in the C2 witness. -/
def c2PatternFile : FileMeta :=
  { filename := "x 1.cbz".toList, path := "d/x 1.cbz".toList,
    mtime := some 50 }

/-- Witness for C2: the pattern tier picks `x 1.cbz` and that result wins,
although the generic tier on its own would have picked the earlier file
`other 1.cbz`. -/
theorem c2_tier_order_witness :
    matchIssue c2Env "x".toList "1".toList c2Files =
      some (c2PatternFile, "pattern".toList) ∧
    (tierFilename "1".toList c2Files).map (fun f => f.filename) =
      some "other 1.cbz".toList :=
  ⟨(c2_tier_order c2Env (some 1) "x".toList "1".toList c2Files).2.1
      c2PatternFile (by decide),
   by decide⟩

/-- `processIssue` is the identity on an issue with a falsy number
(`collection.py` lines 231-232). -/
theorem processIssue_empty_number (env : Env) (sid : Option Int)
    (sname : Str) (files : List FileMeta)
    (acc : List (Str × IssueResult) × List CacheEntry) (i : Issue)
    (h : i.number = []) : processIssue env sid sname files acc i = acc := by
  unfold processIssue
  rw [h]
  rfl

/-- Folding the per-issue body over a list of issues ignores the issues
with falsy numbers. -/
theorem foldl_processIssue_filter (env : Env) (sid : Option Int)
    (sname : Str) (files : List FileMeta) :
    ∀ (issues : List Issue) acc,
      issues.foldl (processIssue env sid sname files) acc =
        (issues.filter (fun i => decide (i.number ≠ []))).foldl
          (processIssue env sid sname files) acc := by
  intro issues
  induction issues with
  | nil => intro acc; rfl
  | cons i rest ih =>
    intro acc
    by_cases hi : i.number = []
    · rw [List.foldl_cons, processIssue_empty_number env sid sname files acc
        i hi, List.filter_cons]
      have : (decide (i.number ≠ [])) = false := by simp [hi]
      rw [this]
      simp only [Bool.false_eq_true, if_false]
      exact ih acc
    · rw [List.foldl_cons, List.filter_cons]
      have : (decide (i.number ≠ [])) = true := by simp [hi]
      rw [this]
      simp only [if_true]
      rw [List.foldl_cons]
      exact ih _
  
/-- `scanPath` ignores issues with falsy numbers. -/
theorem scanPath_filter (env : Env) (mapped_path : Str)
    (issues : List Issue) (sid : Option Int) (sname : Str) :
    scanPath env mapped_path issues sid sname =
      scanPath env mapped_path
        (issues.filter (fun i => decide (i.number ≠ []))) sid sname := by
  unfold scanPath
  cases env.listdir with
  | none => rfl
  | some names =>
    simp only []
    rw [foldl_processIssue_filter]

/-- Membership in a dict after `dictSet`: the new key or an old pair. -/
theorem mem_dictSet {α β : Type} [DecidableEq α] (d : List (α × β)) (k : α)
    (v : β) (x : α × β) (hx : x ∈ dictSet d k v) : x.1 = k ∨ x ∈ d := by
  unfold dictSet at hx
  split at hx
  · rcases List.mem_map.mp hx with ⟨kv, hkv, hval⟩
    by_cases he : kv.1 = k
    · rw [if_pos he] at hval
      left
      rw [← hval]
    · rw [if_neg he] at hval
      right
      rw [← hval]
      exact hkv
  · rcases List.mem_append.mp hx with h | h
    · right; exact h
    · left
      rw [List.mem_singleton] at h
      rw [h]

/-- Every cache row staged by the issue fold carries a non-empty issue
number. -/
theorem foldl_entries_nonempty (env : Env) (sid : Option Int) (sname : Str)
    (files : List FileMeta) :
    ∀ (issues : List Issue) acc,
      (∀ e ∈ acc.2, e.issue_number ≠ ([] : Str)) →
      ∀ e ∈ (issues.foldl (processIssue env sid sname files) acc).2,
        e.issue_number ≠ ([] : Str) := by
  intro issues
  induction issues with
  | nil => intro acc hacc; exact hacc
  | cons i rest ih =>
    intro acc hacc
    rw [List.foldl_cons]
    apply ih
    by_cases hi : i.number = []
    · rw [processIssue_empty_number env sid sname files acc i hi]
      exact hacc
    · unfold processIssue
      rw [if_neg hi]
      simp only []
      split
      · intro e he
        rcases List.mem_append.mp he with h | h
        · exact hacc e h
        · rw [List.mem_singleton] at h
          rw [h]
          exact hi
      · exact hacc

/-- Every key recorded by the issue fold is a non-empty issue number. -/
theorem foldl_results_keys (env : Env) (sid : Option Int) (sname : Str)
    (files : List FileMeta) :
    ∀ (issues : List Issue) acc,
      (∀ kv ∈ acc.1, kv.1 ≠ ([] : Str)) →
      ∀ kv ∈ (issues.foldl (processIssue env sid sname files) acc).1,
        kv.1 ≠ ([] : Str) := by
  intro issues
  induction issues with
  | nil => intro acc hacc; exact hacc
  | cons i rest ih =>
    intro acc hacc
    rw [List.foldl_cons]
    apply ih
    by_cases hi : i.number = []
    · rw [processIssue_empty_number env sid sname files acc i hi]
      exact hacc
    · unfold processIssue
      rw [if_neg hi]
      intro kv hkv
      rcases mem_dictSet _ _ _ kv hkv with h | h
      · rw [h]; exact hi
      · exact hacc kv h

/-- C9: an issue with a missing or empty number is silently skipped: the
whole matcher is unchanged by dropping such issues, no staged cache row
carries an empty number, and no key of a scanned mapping is empty. -/
theorem c9_skip_empty_numbers (env : Env) (mapped_path : Str)
    (issues : List Issue) (si : SeriesInfo) (use_cache : Bool) :
    match_issues_to_collection env mapped_path issues si use_cache =
      match_issues_to_collection env mapped_path
        (issues.filter (fun i => decide (i.number ≠ []))) si use_cache ∧
    (∀ e ∈ (match_issues_to_collection env mapped_path issues si
        use_cache).cacheWrites, e.issue_number ≠ ([] : Str)) ∧
    (∀ kv ∈ (scanPath env mapped_path issues si.id si.name).results,
      kv.1 ≠ ([] : Str)) := by
  have hwrites : ∀ e ∈ (scanPath env mapped_path issues si.id
      si.name).cacheWrites, e.issue_number ≠ ([] : Str) := by
    unfold scanPath
    cases hl : env.listdir with
    | none => intro e he; cases he
    | some names =>
      intro e he
      exact foldl_entries_nonempty env si.id si.name _ issues ([], [])
        (fun e he => absurd he (List.not_mem_nil e)) e he
  refine ⟨?_, ?_, ?_⟩
  · unfold match_issues_to_collection
    rw [scanPath_filter]
  · unfold match_issues_to_collection
    split
    · split
      · exact hwrites
      · split
        · intro e he; cases he
        · exact hwrites
    · exact hwrites
  · unfold scanPath
    cases hl : env.listdir with
    | none => intro kv hkv; cases hkv
    | some names =>
      intro kv hkv
      exact foldl_results_keys env si.id si.name _ issues ([], [])
        (fun kv hkv => absurd hkv (List.not_mem_nil kv)) kv hkv

/-- Witness for C9 on a concrete issue list containing an empty-numbered
issue. -/
theorem c9_skip_empty_numbers_witness :
    match_issues_to_collection c2Env "d".toList
        [{ number := "1".toList, id := some 10 },
         { number := [], id := some 11 }]
        { id := some 1, name := "x".toList } true =
      match_issues_to_collection c2Env "d".toList
        ([{ number := "1".toList, id := some 10 },
          { number := [], id := some 11 }].filter
            (fun i => decide (i.number ≠ [])))
        { id := some 1, name := "x".toList } true ∧
    ({ series_id := 1, issue_id := 10, issue_number := "1".toList,
       found := true, file_path := some "d/x 1.cbz".toList,
       file_mtime := some 50, matched_via := some "pattern".toList } :
        CacheEntry).issue_number ≠ ([] : Str) :=
  ⟨(c9_skip_empty_numbers c2Env "d".toList
      [{ number := "1".toList, id := some 10 },
       { number := [], id := some 11 }]
      { id := some 1, name := "x".toList } true).1,
   (c9_skip_empty_numbers c2Env "d".toList
      [{ number := "1".toList, id := some 10 },
       { number := [], id := some 11 }]
      { id := some 1, name := "x".toList } true).2.1
      { series_id := 1, issue_id := 10, issue_number := "1".toList,
        found := true, file_path := some "d/x 1.cbz".toList,
        file_mtime := some 50, matched_via := some "pattern".toList }
      (by decide)⟩

/-- A scan always reaches the directory listing. -/
theorem scanPath_listedDir (env : Env) (mp : Str) (issues : List Issue)
    (sid : Option Int) (sname : Str) :
    (scanPath env mp issues sid sname).listedDir = true := by
  unfold scanPath
  cases env.listdir <;> rfl

/-- C7: when the directory listing fails the matcher returns the empty
mapping with no per-issue matching and no cache write; a failing stat on a
single file during the scan is recorded as an unknown mtime instead of
aborting. -/
theorem c7_scan_failure (env : Env) (mapped_path : Str)
    (issues : List Issue) (si : SeriesInfo) (names : List Str) (fn : Str) :
    (env.listdir = none →
      scanPath env mapped_path issues si.id si.name =
        { results := [], cacheWrites := [], listedDir := true } ∧
      match_issues_to_collection env mapped_path issues si false =
        { results := [], cacheWrites := [], listedDir := true }) ∧
    (env.listdir = some names → fn ∈ names → isComicFile fn = true →
      env.getmtime (pathJoin mapped_path fn) = none →
      ({ filename := fn, path := pathJoin mapped_path fn, mtime := none } :
        FileMeta) ∈ scanFiles env mapped_path names) := by
  constructor
  · intro hl
    have hscan : scanPath env mapped_path issues si.id si.name =
        { results := [], cacheWrites := [], listedDir := true } := by
      unfold scanPath
      rw [hl]
    refine ⟨hscan, ?_⟩
    unfold match_issues_to_collection
    rw [if_neg (by simp)]
    exact hscan
  · intro hl hfn hcf hmt
    unfold scanFiles
    refine List.mem_map.mpr ⟨fn, List.mem_filter.mpr ⟨hfn, hcf⟩, ?_⟩
    rw [hmt]

/-- Environment for the C7 witness (part 1): the listing raises. -/
def c7FailEnv : Env :=
  { path_exists := fun _ => true,
    getmtime := fun _ => some 50,
    listdir := none,
    read_comicinfo := fun _ => none,
    cached_status := fun _ => [],
    custom_rename_pattern := [] }

/-- Environment for the C7 witness (part 2): the stat of `a.cbz` raises. -/
def c7StatEnv : Env :=
  { path_exists := fun _ => true,
    getmtime := fun _ => none,
    listdir := some ["a.cbz".toList],
    read_comicinfo := fun _ => none,
    cached_status := fun _ => [],
    custom_rename_pattern := [] }

/-- Witness for C7: a failing listing yields the empty outcome; a failing
stat yields a scanned file with unknown mtime. -/
theorem c7_scan_failure_witness :
    match_issues_to_collection c7FailEnv "d".toList
        [{ number := "1".toList, id := some 10 }]
        { id := some 1, name := "x".toList } false =
      { results := [], cacheWrites := [], listedDir := true } ∧
    ({ filename := "a.cbz".toList, path := "d/a.cbz".toList,
       mtime := none } : FileMeta) ∈
      scanFiles c7StatEnv "d".toList ["a.cbz".toList] :=
  ⟨((c7_scan_failure c7FailEnv "d".toList
      [{ number := "1".toList, id := some 10 }]
      { id := some 1, name := "x".toList } [] []).1 rfl).2,
   (c7_scan_failure c7StatEnv "d".toList []
      { id := some 1, name := "x".toList } ["a.cbz".toList]
      "a.cbz".toList).2 rfl (by decide) (by decide) (by decide)⟩

/-- C1 (amended): with `use_cache` and a truthy series id and a non-empty
cached set, the matcher returns the mapping rebuilt verbatim from the
cache, with no directory listing and no cache write, exactly when every
entry passes validation; any invalid entry sends the whole series through
the full scan.  An entry with a truthy `file_path` is invalid exactly when
its file is missing, its current mtime cannot be read, or — only when the
cached mtime is non-null and non-zero — the mtimes differ by more than one
second. -/
theorem c1_cache_validation (env : Env) (mapped_path : Str)
    (issues : List Issue) (si : SeriesInfo) (sid : Int)
    (hid : si.id = some sid) (hnz : sid ≠ 0)
    (hne : env.cached_status sid ≠ []) :
    ((env.cached_status sid).all (entryValid env) = true →
      match_issues_to_collection env mapped_path issues si true =
        { results := cacheResults (env.cached_status sid),
          cacheWrites := [], listedDir := false }) ∧
    ((env.cached_status sid).all (entryValid env) = false →
      match_issues_to_collection env mapped_path issues si true =
        scanPath env mapped_path issues si.id si.name ∧
      (scanPath env mapped_path issues si.id si.name).listedDir = true) ∧
    (∀ e : CacheEntry, entryValid env e = false ↔
      ∃ p, e.file_path = some p ∧ p ≠ [] ∧
        (env.path_exists p = false ∨ env.getmtime p = none ∨
         ∃ cur mt, env.getmtime p = some cur ∧ e.file_mtime = some mt ∧
           mt ≠ 0 ∧ intAbs (cur - mt) > 1)) := by
  have hcond : (true && truthyId si.id) = true := by
    rw [hid]
    simp [truthyId, hnz]
  have hgetd : si.id.getD 0 = sid := by
    rw [hid]
    rfl
  refine ⟨?_, ?_, ?_⟩
  · intro hall
    unfold match_issues_to_collection
    rw [if_pos hcond, hgetd, if_neg hne, if_pos hall]
  · intro hall
    unfold match_issues_to_collection
    rw [if_pos hcond, hgetd, if_neg hne]
    rw [hall]
    exact ⟨rfl, scanPath_listedDir env mapped_path issues si.id si.name⟩
  · rintro ⟨esid, eiid, enum, efound, efp, emt, evia⟩
    cases efp with
    | none => simp [entryValid]
    | some p =>
      by_cases hp : p = []
      · subst hp
        simp [entryValid]
      · cases hex : env.path_exists p with
        | false => simp [entryValid, hex, hp]
        | true =>
          cases hmt : env.getmtime p with
          | none => simp [entryValid, hex, hmt, hp]
          | some cur =>
            cases emt with
            | none => simp [entryValid, hex, hmt, hp]
            | some mt =>
              by_cases hc : mt ≠ 0 ∧ intAbs (cur - mt) > 1
              · simp [entryValid, hex, hmt, hp, hc]
              · simp [entryValid, hex, hmt, hp, hc]

/-- A cached row whose stored mtime is `0.0` — falsy in Python, so the
source skips its mtime comparison. -/
def c1CacheEntry : CacheEntry :=
  { series_id := 1, issue_id := 7, issue_number := "1".toList,
    found := true, file_path := some "d/a.cbz".toList, file_mtime := some 0,
    matched_via := some "filename".toList }

/-- Environment for C1: the cached file exists but its current mtime (100)
differs from the cached one (0) by far more than one second; the directory
itself is empty, so a rescan would find nothing. -/
def c1Env : Env :=
  { path_exists := fun _ => true,
    getmtime := fun _ => some 100,
    listdir := some [],
    read_comicinfo := fun _ => none,
    cached_status := fun sid => if sid = 1 then [c1CacheEntry] else [],
    custom_rename_pattern := [] }

/-- The series of the C1 scenario. -/
def c1Series : SeriesInfo := { id := some 1, name := "x".toList }

/-- The issue list of the C1 scenario. -/
def c1Issues : List Issue := [{ number := "1".toList, id := some 7 }]

/-- Counterexample to C1 as stated: the cached entry's file exists and its
current mtime differs from the cached value by 100 seconds (far more than
one second), so the claim requires the cached set to be discarded and a
full directory rescan to be performed; instead the code never lists the
directory and returns the cached mapping verbatim (a rescan of the empty
directory would have reported the issue as not found).  The cause: the
source guards the mtime comparison behind Python truthiness of the cached
mtime, and `0.0` is falsy. -/
theorem c1_counterexample :
    (c1Env.path_exists "d/a.cbz".toList = true ∧
     c1Env.getmtime "d/a.cbz".toList = some 100 ∧
     c1CacheEntry.file_mtime = some 0 ∧ intAbs ((100 : Int) - 0) > 1) ∧
    (match_issues_to_collection c1Env "d".toList c1Issues c1Series
        true).listedDir = false ∧
    (match_issues_to_collection c1Env "d".toList c1Issues c1Series
        true).results =
      [("1".toList, { found := true, file_path := some "d/a.cbz".toList })] ∧
    (scanPath c1Env "d".toList c1Issues c1Series.id c1Series.name).results =
      [("1".toList, { found := false, file_path := none })] := by
  refine ⟨⟨rfl, rfl, rfl, by decide⟩, ?_, ?_, ?_⟩ <;> decide

/-- A fully valid cached set for the C1 witness: the cached mtime agrees
with the current one. -/
def c1ValidEntry : CacheEntry :=
  { series_id := 1, issue_id := 7, issue_number := "1".toList,
    found := true, file_path := some "d/a.cbz".toList,
    file_mtime := some 100, matched_via := some "filename".toList }

/-- Environment for the C1 witness: every cached entry validates. -/
def c1ValidEnv : Env :=
  { path_exists := fun _ => true,
    getmtime := fun _ => some 100,
    listdir := some [],
    read_comicinfo := fun _ => none,
    cached_status := fun sid => if sid = 1 then [c1ValidEntry] else [],
    custom_rename_pattern := [] }

/-- Witness for the amended C1: with a fully valid cached set the matcher
returns the rebuilt cached mapping without listing the directory, and with
the invalid (mtime-drifted, non-zero cached mtime) variant it rescans. -/
theorem c1_cache_validation_witness :
    match_issues_to_collection c1ValidEnv "d".toList c1Issues c1Series
        true =
      { results := cacheResults (c1ValidEnv.cached_status 1),
        cacheWrites := [], listedDir := false } ∧
    entryValid c1ValidEnv
      { c1ValidEntry with file_mtime := some 50 } = false :=
  ⟨(c1_cache_validation c1ValidEnv "d".toList c1Issues c1Series 1 rfl
      (by decide) (by decide)).1 (by decide),
   (c1_cache_validation c1ValidEnv "d".toList c1Issues c1Series 1 rfl
      (by decide) (by decide)).2.2
      { c1ValidEntry with file_mtime := some 50 } |>.mpr
      ⟨"d/a.cbz".toList, rfl, by decide,
        Or.inr (Or.inr ⟨100, 50, rfl, rfl, by decide, by decide⟩)⟩⟩
